import Mathlib

/-!
Verification of the rpcmoq_lite RPC-over-MoQ routing and session layer.

The development shallowly embeds the core of the repository:
* the path grammar (`GrpcPath.parse`, `RpcRequestPath.parse` from
  `src/rpcmoq_lite/path.rs`),
* the wire error codec (`RpcWireError.to_code` / `from_code` from
  `crates/rpcmoq_lite/src/error.rs`),
* the session registry (`SessionMap.try_create` and the `SessionGuard`
  drop handler from `crates/rpcmoq_lite/src/server/session.rs`) as a trace
  machine,
* the router admission path (`RpcRouter.handle_announcement` and the `run`
  loop from `crates/rpcmoq_lite/src/server/router.rs`) with the externally
  visible transport actions reified as an event list,
* the spawned handler task body and the decoded inbound stream
  (`crates/rpcmoq_lite/src/server/handler.rs`), with the user connector,
  the response stream and the transport send modelled as oracles.

Rust strings are modelled as `List Char`; `Option`/`Result` become
`Option`/`Except`.
-/

/-- Rust `String` / `&str`, modelled as its character sequence. -/
abbrev Str : Type := List Char

/-- Rust `path.strip_prefix('/').unwrap_or(path)`: drop one leading slash
if present, otherwise return the input unchanged. -/
def stripSlash (s : Str) : Str :=
  match s with
  | [] => []
  | c :: rest => if c = '/' then rest else c :: rest

/-- Rust `s.split(sep)` on a single `char` separator: the list of
separator-free segments; never empty, and `n` separators yield `n + 1`
segments. -/
def splitChar (sep : Char) : Str → List Str
  | [] => [[]]
  | c :: rest =>
    if c = sep then [] :: splitChar sep rest
    else
      match splitChar sep rest with
      | [] => [[c]]
      | s :: ss => (c :: s) :: ss

/-- Rust `segments.join(sep)` for a one-character separator. -/
def joinChar (sep : Char) : List Str → Str
  | [] => []
  | [s] => s
  | s :: t :: rest => s ++ sep :: joinChar sep (t :: rest)

/-- Rust `s.rsplit_once(sep)`: split at the last occurrence of `sep`,
returning the parts before and after it; `none` when `sep` does not occur. -/
def rsplitOnce (sep : Char) : Str → Option (Str × Str)
  | [] => none
  | c :: rest =>
    match rsplitOnce sep rest with
    | some (a, b) => some (c :: a, b)
    | none => if c = sep then some ([], rest) else none

/-- `RpcError` from `src/rpcmoq_lite/error.rs`, restricted to the variant
the path parser produces; the human-readable message payload is dropped. -/
inductive RpcError : Type
  | pathParse
deriving DecidableEq

/-- `GrpcPath` from `src/rpcmoq_lite/path.rs`. -/
structure GrpcPath where
  package : Str
  service : Str
  method : Str
deriving DecidableEq

/-- `GrpcPath::parse` from `src/rpcmoq_lite/path.rs`:
strip one optional leading `/`, `rsplit_once('/')` into service path and
method, `rsplit_once('.')` into package and service, and require all three
components non-empty. -/
def GrpcPath.parse (path : Str) : Except RpcError GrpcPath :=
  let p := stripSlash path
  match rsplitOnce '/' p with
  | none => Except.error RpcError.pathParse
  | some (servicePath, method) =>
    match rsplitOnce '.' servicePath with
    | none => Except.error RpcError.pathParse
    | some (package, service) =>
      if package = [] ∨ service = [] ∨ method = [] then
        Except.error RpcError.pathParse
      else
        Except.ok ⟨package, service, method⟩

/-- `GrpcPath::full_service`: `{package}.{service}`. -/
def GrpcPath.full_service (g : GrpcPath) : Str :=
  g.package ++ '.' :: g.service

/-- `GrpcPath::full_path`: `{package}.{service}/{method}`. -/
def GrpcPath.full_path (g : GrpcPath) : Str :=
  g.package ++ '.' :: g.service ++ '/' :: g.method

/-- `RpcRequestPath` from `src/rpcmoq_lite/path.rs`. -/
structure RpcRequestPath where
  client_id : Str
  grpc_path : GrpcPath
deriving DecidableEq

/-- `RpcRequestPath::parse` from `src/rpcmoq_lite/path.rs`.
The source indexes `parts[len-1]`, `parts[len-2]` and joins
`parts[..len-2]`; here the same positions are reached by matching on the
reversed segment list (`restRev` is `parts[..len-2]` reversed). The check
order mirrors the source: segment count `< 2`, then the `.` requirement on
the service segment, then the presence of a client id, then the embedded
`GrpcPath::parse` call on `{service_part}/{method}`. -/
def RpcRequestPath.parse (path : Str) : Except RpcError RpcRequestPath :=
  let p := stripSlash path
  let parts := splitChar '/' p
  match parts.reverse with
  | [] => Except.error RpcError.pathParse
  | [_] => Except.error RpcError.pathParse
  | method :: servicePart :: restRev =>
    if '.' ∈ servicePart then
      match restRev with
      | [] => Except.error RpcError.pathParse
      | _ :: _ =>
        match GrpcPath.parse (servicePart ++ '/' :: method) with
        | Except.error e => Except.error e
        | Except.ok g => Except.ok ⟨joinChar '/' restRev.reverse, g⟩
    else Except.error RpcError.pathParse

/-- The rendering `{cid}/{pkg}.{svc}/{method}` used by the round-trip
property (the client announce path without the namespace root). -/
def renderRequestPath (cid pk sv m : Str) : Str :=
  cid ++ '/' :: pk ++ '.' :: sv ++ '/' :: m

/-- `RpcWireError` from `crates/rpcmoq_lite/src/error.rs`. The `Transport`
variant carries a `moq_lite::Error`; since the only operation the codec
applies to it is `e.to_code()`, it is modelled by that code. -/
inductive RpcWireError : Type
  | noHandler
  | sessionAlreadyActive
  | decode
  | grpc
  | internal
  | transport (code : Nat)
  | unknown (code : Nat)
deriving DecidableEq

/-- `RpcWireError::to_code`. -/
def RpcWireError.to_code : RpcWireError → Nat
  | RpcWireError.noHandler => 1
  | RpcWireError.sessionAlreadyActive => 2
  | RpcWireError.decode => 3
  | RpcWireError.grpc => 4
  | RpcWireError.internal => 5
  | RpcWireError.transport c => c
  | RpcWireError.unknown c => c

/-- `RpcWireError::from_code`: the five reserved codes map to their kinds,
everything else is preserved as `Unknown(code)`. -/
def RpcWireError.from_code (code : Nat) : RpcWireError :=
  if code = 1 then RpcWireError.noHandler
  else if code = 2 then RpcWireError.sessionAlreadyActive
  else if code = 3 then RpcWireError.decode
  else if code = 4 then RpcWireError.grpc
  else if code = 5 then RpcWireError.internal
  else RpcWireError.unknown code

/-- `SessionKey` from `crates/rpcmoq_lite/src/server/session.rs`. -/
structure SessionKey where
  client_id : Str
  grpc_path : Str
deriving DecidableEq

/-- State of the `SessionMap` trace machine. `sessions` is the `DashMap`
key set (the map's values are `()`); `guards` lists the live
`SessionGuard`s as (guard id, key); `nextId` supplies fresh guard ids. -/
structure SessionMapState where
  sessions : List SessionKey
  guards : List (Nat × SessionKey)
  nextId : Nat

/-- `SessionMap::new` together with no live guards. -/
def SessionMapState.init : SessionMapState := ⟨[], [], 0⟩

/-- `SessionMap::try_create`: the atomic vacant-check-and-insert of the
`DashMap` entry API. On an occupied entry it fails and leaves the state
unchanged; on a vacant entry it inserts the key and returns a fresh live
guard (its id). -/
def SessionMapState.try_create (st : SessionMapState) (k : SessionKey) :
    Option Nat × SessionMapState :=
  if k ∈ st.sessions then (none, st)
  else (some st.nextId,
    ⟨k :: st.sessions, (st.nextId, k) :: st.guards, st.nextId + 1⟩)

/-- Look up the key of a live guard by id (a live guard exists at most
once per id). -/
def findGuard (g : Nat) : List (Nat × SessionKey) → Option SessionKey
  | [] => none
  | q :: qs => if q.1 = g then some q.2 else findGuard g qs

/-- `DashMap::remove(&key)`: drop every entry for `key` (the map holds at
most one). -/
def removeKey (k : SessionKey) : List SessionKey → List SessionKey
  | [] => []
  | x :: xs => if x = k then removeKey k xs else x :: removeKey k xs

/-- Remove the guard with the given id from the live-guard list. -/
def removeGuard (g : Nat) : List (Nat × SessionKey) → List (Nat × SessionKey)
  | [] => []
  | q :: qs => if q.1 = g then removeGuard g qs else q :: removeGuard g qs

/-- `Drop for SessionGuard`: `self.map.remove(&self.key)`, removing the
guard's key from the map unconditionally; the guard itself dies. Dropping
an id with no live guard is a no-op (unreachable in Rust, where each guard
is dropped exactly once). -/
def SessionMapState.drop_guard (st : SessionMapState) (g : Nat) :
    SessionMapState :=
  match findGuard g st.guards with
  | none => st
  | some k =>
    ⟨removeKey k st.sessions, removeGuard g st.guards, st.nextId⟩

/-- `SessionMap::contains`. -/
def SessionMapState.contains (st : SessionMapState) (k : SessionKey) : Bool :=
  decide (k ∈ st.sessions)

/-- `SessionMap::len`. -/
def SessionMapState.len (st : SessionMapState) : Nat :=
  st.sessions.length

/-- One atomic operation on the session registry: a `try_create` call or
the drop of a guard. `DashMap` serialises per-key access, so any
concurrent execution is some interleaving, i.e. some operation list. -/
inductive SessionOp : Type
  | create (k : SessionKey)
  | dropg (g : Nat)

/-- Apply one operation. -/
def SessionMapState.applyOp (st : SessionMapState) : SessionOp → SessionMapState
  | SessionOp.create k => (st.try_create k).2
  | SessionOp.dropg g => st.drop_guard g

/-- Run a trace of operations from the empty registry. -/
def runSessionOps (ops : List SessionOp) : SessionMapState :=
  ops.foldl SessionMapState.applyOp SessionMapState.init

/-- `RpcRouterConfig` for the crates router. The crates `config.rs` is not
under the sources; modelled from the spec: configuration
`{client_prefix, response_prefix, track_name}` where `client_prefix` is
optional (`run` matches on `Some`/`None`). Field names avoid the `prefix`
suffix: `client_root` is `client_prefix`, `response_root` is
`response_prefix`. -/
structure RpcRouterConfig where
  client_root : Option Str
  response_root : Str
  track_name : Str

/-- Modelled from the spec: `RpcRouterConfig::response_path` (the crates
`config.rs` is not under the sources); §6 of the spec fixes the server
answer path as `{response_prefix}/{client_id}/{package}.{service}/{method}`. -/
def RpcRouterConfig.response_path (cfg : RpcRouterConfig)
    (client_id grpc_path : Str) : Str :=
  cfg.response_root ++ '/' :: client_id ++ '/' :: grpc_path

/-- `RpcServerError` from `crates/rpcmoq_lite/src/error.rs`; message
payloads of `BroadcastCreate` and `Unauthorized` are dropped. -/
inductive RpcServerError : Type
  | path (e : RpcError)
  | sessionAlreadyActive (client_id grpc_path : Str)
  | noHandler (grpc_path : Str)
  | broadcastCreate
  | unauthorized
deriving DecidableEq

/-- The externally visible transport actions of `handle_announcement`,
in program order: creating the response broadcast (with its single
outbound track), aborting that track with an application code, and
handing the connection to a spawned handler task. -/
inductive RouterEvent : Type
  | createBroadcast (path : Str)
  | abortApp (code : Nat)
  | spawn (client_id grpc_path : Str)
deriving DecidableEq

/-- `RpcRouter::handle_announcement` from
`crates/rpcmoq_lite/src/server/router.rs`. Inputs: the handler map keys,
the current session key set, the configuration, the relay's
`create_broadcast` admission oracle, and the announced path. Output: the
emitted transport events in order, the `Result`, and the session key set
after the call (`try_create` inserts on success). The source order is
kept: parse, create response broadcast, handler lookup (abort
`NoHandler` on miss), session `try_create` (abort `SessionAlreadyActive`
when occupied), spawn. -/
def RpcRouter.handle_announcement (handlers : List Str)
    (sessions : List SessionKey) (config : RpcRouterConfig)
    (createOk : Str → Bool) (path : Str) :
    List RouterEvent × Except RpcServerError Unit × List SessionKey :=
  match RpcRequestPath.parse path with
  | Except.error e => ([], Except.error (RpcServerError.path e), sessions)
  | Except.ok rp =>
    let client_id := rp.client_id
    let grpc_path := rp.grpc_path.full_path
    let rpath := config.response_path client_id grpc_path
    if createOk rpath then
      if grpc_path ∈ handlers then
        if (⟨client_id, grpc_path⟩ : SessionKey) ∈ sessions then
          ([RouterEvent.createBroadcast rpath,
            RouterEvent.abortApp
              (RpcWireError.to_code RpcWireError.sessionAlreadyActive)],
           Except.error (RpcServerError.sessionAlreadyActive client_id grpc_path),
           sessions)
        else
          ([RouterEvent.createBroadcast rpath,
            RouterEvent.spawn client_id grpc_path],
           Except.ok (),
           (⟨client_id, grpc_path⟩ : SessionKey) :: sessions)
      else
        ([RouterEvent.createBroadcast rpath,
          RouterEvent.abortApp (RpcWireError.to_code RpcWireError.noHandler)],
         Except.error (RpcServerError.noHandler grpc_path),
         sessions)
    else ([], Except.error RpcServerError.broadcastCreate, sessions)

/-- One item of the announcement stream: `Some((path, Some(_)))` is an
appearance, `Some((path, None))` a departure; end of the Lean list is the
stream end (`None`). -/
inductive Announcement : Type
  | appeared (path : Str)
  | departed (path : Str)

/-- The announcement loop of `RpcRouter::run`: appearances go through
`handle_announcement` whose error is logged and discarded, departures do
nothing, and the stream end breaks the loop with `Ok(())`. -/
def RpcRouter.runLoop (handlers : List Str) (config : RpcRouterConfig)
    (createOk : Str → Bool) :
    List SessionKey → List Announcement → Except RpcServerError Unit
  | _, [] => Except.ok ()
  | sessions, Announcement.appeared p :: rest =>
    RpcRouter.runLoop handlers config createOk
      (RpcRouter.handle_announcement handlers sessions config createOk p).2.2 rest
  | sessions, Announcement.departed _ :: rest =>
    RpcRouter.runLoop handlers config createOk sessions rest

/-- `RpcRouter::run` from `crates/rpcmoq_lite/src/server/router.rs`.
`authorized` is the relay's answer to `consumer.with_root(prefix)`
(`Some`/`None`), consulted only when a client prefix is configured. -/
def RpcRouter.run (authorized : Bool) (handlers : List Str)
    (config : RpcRouterConfig) (createOk : Str → Bool)
    (anns : List Announcement) : Except RpcServerError Unit :=
  match config.client_root with
  | some _ =>
    if authorized then RpcRouter.runLoop handlers config createOk [] anns
    else Except.error RpcServerError.unauthorized
  | none => RpcRouter.runLoop handlers config createOk [] anns

/-- The externally visible actions of a spawned handler task on its
outbound track: sending one encoded response frame, or aborting the track
with an application code. A clean task exit (close without abort) is the
end of the event list with no `abort`. -/
inductive TaskEvent (α : Type) : Type
  | send (msg : α)
  | abort (code : Nat)
deriving DecidableEq

/-- The response-draining loop of `TypedHandler::spawn_handler` from
`crates/rpcmoq_lite/src/server/handler.rs`. `sendOk` is the transport's
answer to `outbound.send(&msg)` (encode + write); the stream items are the
connector's response stream. Per `Ok(msg)`: send, and on send failure
abort `Internal` and return; per `Err(_)`: abort `Grpc` and return; end of
stream: fall through with no abort. -/
def TypedHandler.drainResponses {σ α : Type} (sendOk : α → Bool) :
    List (Except σ α) → List (TaskEvent α)
  | [] => []
  | Except.ok m :: rest =>
    if sendOk m then TaskEvent.send m :: TypedHandler.drainResponses sendOk rest
    else [TaskEvent.abort (RpcWireError.to_code RpcWireError.internal)]
  | Except.error _ :: _ =>
    [TaskEvent.abort (RpcWireError.to_code RpcWireError.grpc)]

/-- The body of the task spawned by `TypedHandler::spawn_handler`,
after the decode-error hook is installed: the connector either fails
(abort `Grpc`, return) or yields a finite response stream, which is
drained by `TypedHandler.drainResponses`. -/
def TypedHandler.spawn_handler {σ α : Type}
    (connectorResult : Except σ (List (Except σ α))) (sendOk : α → Bool) :
    List (TaskEvent α) :=
  match connectorResult with
  | Except.error _ => [TaskEvent.abort (RpcWireError.to_code RpcWireError.grpc)]
  | Except.ok items => TypedHandler.drainResponses sendOk items

/-- The decode-error hook `spawn_handler` installs on the typed inbound
stream via `with_decode_error_handler`: its body aborts the outbound track
with `RpcWireError::Decode.to_code()`. -/
def TypedHandler.onDecodeError (α : Type) : List (TaskEvent α) :=
  [TaskEvent.abort (RpcWireError.to_code RpcWireError.decode)]

/-- `impl Stream for DecodedInbound` from
`crates/rpcmoq_lite/src/server/handler.rs`, run to completion over a
finite inbound byte-frame sequence. `dec` is `Req::decode`. The result is
the typed item sequence the stream yields before terminating, paired with
whether the `on_decode_error` callback was invoked: an undecodable `Ok`
frame terminates the stream and invokes the callback; a transport-level
`Err` item terminates the stream without invoking it; the end of the
inbound sequence terminates it likewise. -/
def DecodedInbound.run {ε β ρ : Type} (dec : β → Option ρ) :
    List (Except ε β) → List ρ × Bool
  | [] => ([], false)
  | Except.ok b :: rest =>
    match dec b with
    | some msg =>
      let r := DecodedInbound.run dec rest
      (msg :: r.1, r.2)
    | none => ([], true)
  | Except.error _ :: _ => ([], false)

/-- Decidable equality for `Except`, so concrete parser outcomes can be
checked by `decide`. -/
instance {ε α : Type} [DecidableEq ε] [DecidableEq α] :
    DecidableEq (Except ε α) := fun a b =>
  match a, b with
  | Except.ok x, Except.ok y =>
    if h : x = y then isTrue (congrArg Except.ok h)
    else isFalse (fun e => h (Except.ok.inj e))
  | Except.error x, Except.error y =>
    if h : x = y then isTrue (congrArg Except.error h)
    else isFalse (fun e => h (Except.error.inj e))
  | Except.ok _, Except.error _ => isFalse (fun e => Except.noConfusion e)
  | Except.error _, Except.ok _ => isFalse (fun e => Except.noConfusion e)

/-- Claim C1 exactly as stated: whenever `handle_announcement` fails
before dispatch with a bad path, a missing handler or a duplicate
session, the response broadcast is still published and the track aborted,
with wire code 1 for `NoHandler` and 2 for `SessionAlreadyActive`. -/
def claimC1Statement : Prop :=
  ∀ (handlers : List Str) (sessions : List SessionKey)
    (config : RpcRouterConfig) (createOk : Str → Bool) (path : Str),
    let out := RpcRouter.handle_announcement handlers sessions config createOk path
    ((∃ e, out.2.1 = Except.error (RpcServerError.path e))
      ∨ (∃ g, out.2.1 = Except.error (RpcServerError.noHandler g))
      ∨ (∃ c gp, out.2.1
          = Except.error (RpcServerError.sessionAlreadyActive c gp))) →
    ((∃ p, RouterEvent.createBroadcast p ∈ out.1)
      ∧ (∃ c, RouterEvent.abortApp c ∈ out.1)
      ∧ (∀ g, out.2.1 = Except.error (RpcServerError.noHandler g) →
          RouterEvent.abortApp 1 ∈ out.1)
      ∧ (∀ c gp, out.2.1
            = Except.error (RpcServerError.sessionAlreadyActive c gp) →
          RouterEvent.abortApp 2 ∈ out.1))

/-- Claim C4 exactly as stated: the rendering of every tuple with
non-empty components, `svc` free of `.` and `/`, and `method` free of
`/`, parses back to exactly those components ( `cid` is only required
non-empty and may contain `/`; `pkg` is only required non-empty and may
contain `.`). -/
def claimC4Statement : Prop :=
  ∀ cid pk sv m : Str,
    cid ≠ [] → pk ≠ [] → sv ≠ [] → m ≠ [] →
    '.' ∉ sv → '/' ∉ sv → '/' ∉ m →
    RpcRequestPath.parse (renderRequestPath cid pk sv m)
      = Except.ok ⟨cid, ⟨pk, sv, m⟩⟩

/-- Claim C8 exactly as stated: `RpcRequestPath::parse` rejects inputs
with fewer than three `/`-segments and inputs whose second-to-last
segment lacks a `.`, and every accepted input yields a non-empty client
id. -/
def claimC8Statement : Prop :=
  ∀ s : Str,
    ((splitChar '/' (stripSlash s)).length < 3 →
      RpcRequestPath.parse s = Except.error RpcError.pathParse)
    ∧ (∀ mth sp r, (splitChar '/' (stripSlash s)).reverse = mth :: sp :: r →
        '.' ∉ sp → RpcRequestPath.parse s = Except.error RpcError.pathParse)
    ∧ (∀ rp, RpcRequestPath.parse s = Except.ok rp → rp.client_id ≠ [])

/-- The registry invariant tying the `DashMap` contents to the live
guards: the key set is exactly the live guards' keys, guard ids are
distinct, keys are distinct, and every live id was issued. -/
def SessionMapState.Inv (st : SessionMapState) : Prop :=
  st.sessions = st.guards.map Prod.snd
  ∧ (st.guards.map Prod.fst).Nodup
  ∧ st.sessions.Nodup
  ∧ ∀ q ∈ st.guards, q.1 < st.nextId

/-! ### Lemmas about the string primitives -/

lemma splitChar_ne_nil (sep : Char) (s : Str) : splitChar sep s ≠ [] := by
  cases s with
  | nil => simp [splitChar]
  | cons c rest =>
    by_cases hc : c = sep
    · simp [splitChar, hc]
    · simp only [splitChar, if_neg hc]
      cases h : splitChar sep rest <;> simp

lemma splitChar_not_mem {sep : Char} {s : Str} (h : sep ∉ s) :
    splitChar sep s = [s] := by
  induction s with
  | nil => rfl
  | cons c rest ih =>
    have hc : ¬ c = sep := fun e => h (by simp [e])
    have hr : sep ∉ rest := fun m => h (List.mem_cons_of_mem _ m)
    simp [splitChar, hc, ih hr]

lemma splitChar_append (sep : Char) (xs ys : Str) :
    splitChar sep (xs ++ sep :: ys) = splitChar sep xs ++ splitChar sep ys := by
  induction xs with
  | nil => simp [splitChar]
  | cons c xs ih =>
    by_cases hc : c = sep
    · simp [splitChar, hc, ih]
    · simp only [List.cons_append, splitChar, if_neg hc]
      rw [show splitChar sep (xs.append (sep :: ys))
            = splitChar sep xs ++ splitChar sep ys from ih]
      cases h : splitChar sep xs with
      | nil => exact absurd h (splitChar_ne_nil sep xs)
      | cons s ss => simp [h]

lemma joinChar_cons (sep : Char) (s t : Str) (ts : List Str) :
    joinChar sep (s :: t :: ts) = s ++ sep :: joinChar sep (t :: ts) := rfl

lemma joinChar_splitChar (sep : Char) (s : Str) :
    joinChar sep (splitChar sep s) = s := by
  induction s with
  | nil => rfl
  | cons c rest ih =>
    by_cases hc : c = sep
    · simp only [splitChar, if_pos hc]
      cases h : splitChar sep rest with
      | nil => exact absurd h (splitChar_ne_nil sep rest)
      | cons t ts =>
        rw [h] at ih
        rw [joinChar_cons, ← ih, hc]
        rfl
    · simp only [splitChar, if_neg hc]
      cases h : splitChar sep rest with
      | nil => exact absurd h (splitChar_ne_nil sep rest)
      | cons t ts =>
        rw [h] at ih
        cases ts with
        | nil =>
          simp only [joinChar] at ih ⊢
          rw [ih]
        | cons u us =>
          rw [joinChar_cons] at ih
          rw [joinChar_cons, ← ih]
          rfl

lemma rsplitOnce_eq_none {sep : Char} {s : Str} (h : sep ∉ s) :
    rsplitOnce sep s = none := by
  induction s with
  | nil => rfl
  | cons c rest ih =>
    have hc : ¬ c = sep := fun e => h (by simp [e])
    have hr : sep ∉ rest := fun m => h (List.mem_cons_of_mem _ m)
    simp [rsplitOnce, ih hr, hc]

lemma not_mem_of_rsplitOnce_none {sep : Char} :
    ∀ {s : Str}, rsplitOnce sep s = none → sep ∉ s := by
  intro s
  induction s with
  | nil => intro _ m; simp at m
  | cons c rest ih =>
    intro h m
    simp only [rsplitOnce] at h
    cases hr : rsplitOnce sep rest with
    | some p => rw [hr] at h; simp at h
    | none =>
      rw [hr] at h
      by_cases hc : c = sep
      · simp [hc] at h
      · rcases List.mem_cons.mp m with e | m'
        · exact hc e.symm
        · exact ih hr m'

lemma rsplitOnce_sound {sep : Char} :
    ∀ {s a b : Str}, rsplitOnce sep s = some (a, b) →
    s = a ++ sep :: b ∧ sep ∉ b := by
  intro s
  induction s with
  | nil => intro a b h; simp [rsplitOnce] at h
  | cons c rest ih =>
    intro a b h
    simp only [rsplitOnce] at h
    cases hr : rsplitOnce sep rest with
    | some p =>
      obtain ⟨a', b'⟩ := p
      rw [hr] at h
      simp only [Option.some.injEq, Prod.mk.injEq] at h
      obtain ⟨ha, hb⟩ := h
      obtain ⟨e1, e2⟩ := ih hr
      subst ha hb
      exact ⟨by rw [e1]; rfl, e2⟩
    | none =>
      rw [hr] at h
      by_cases hc : c = sep
      · rw [if_pos hc] at h
        simp only [Option.some.injEq, Prod.mk.injEq] at h
        obtain ⟨ha, hb⟩ := h
        subst ha hb
        exact ⟨by rw [hc]; rfl, not_mem_of_rsplitOnce_none hr⟩
      · rw [if_neg hc] at h
        simp at h

lemma rsplitOnce_last (a : Str) {sep : Char} {b : Str} (hb : sep ∉ b) :
    rsplitOnce sep (a ++ sep :: b) = some (a, b) := by
  induction a with
  | nil => simp [rsplitOnce, rsplitOnce_eq_none hb]
  | cons c a ih => simp [rsplitOnce, ih]

lemma stripSlash_of_head {s : Str} (h : s.head? ≠ some '/') :
    stripSlash s = s := by
  cases s with
  | nil => rfl
  | cons c rest =>
    have hc : ¬ c = '/' := fun e => h (by simp [e])
    simp [stripSlash, hc]

lemma splitChar_cons_head {sep c : Char} (hc : ¬ c = sep) (rest : Str) :
    ∃ s0 ss, splitChar sep (c :: rest) = (c :: s0) :: ss := by
  simp only [splitChar, if_neg hc]
  cases h : splitChar sep rest with
  | nil => exact absurd h (splitChar_ne_nil sep rest)
  | cons s ss => exact ⟨s, ss, rfl⟩

lemma joinChar_cons_ne_nil {sep : Char} {a : Str} (ha : a ≠ []) (l : List Str) :
    joinChar sep (a :: l) ≠ [] := by
  cases l with
  | nil => simpa [joinChar] using ha
  | cons t ts =>
    cases a with
    | nil => exact absurd rfl ha
    | cons x xs => simp [joinChar_cons]

/-! ### Lemmas about the path grammar -/

lemma GrpcPath.parse_sound {s : Str} {g : GrpcPath}
    (h : GrpcPath.parse s = Except.ok g) :
    stripSlash s = g.package ++ '.' :: g.service ++ '/' :: g.method
    ∧ g.package ≠ [] ∧ g.service ≠ [] ∧ g.method ≠ []
    ∧ '.' ∉ g.service ∧ '/' ∉ g.method := by
  simp only [GrpcPath.parse] at h
  cases h1 : rsplitOnce '/' (stripSlash s) with
  | none => rw [h1] at h; simp at h
  | some p =>
    obtain ⟨sp, m⟩ := p
    rw [h1] at h
    dsimp only at h
    cases h2 : rsplitOnce '.' sp with
    | none => rw [h2] at h; simp at h
    | some q =>
      obtain ⟨pk, sv⟩ := q
      rw [h2] at h
      dsimp only at h
      by_cases h3 : pk = [] ∨ sv = [] ∨ m = []
      · rw [if_pos h3] at h; simp at h
      · rw [if_neg h3] at h
        simp only [Except.ok.injEq] at h
        subst h
        push_neg at h3
        obtain ⟨hpk, hsv, hm⟩ := h3
        obtain ⟨e1, hslash⟩ := rsplitOnce_sound h1
        obtain ⟨e2, hdot⟩ := rsplitOnce_sound h2
        refine ⟨?_, hpk, hsv, hm, hdot, hslash⟩
        rw [e1, e2]

lemma GrpcPath.parse_no_slash {s : Str} (h : '/' ∉ stripSlash s) :
    GrpcPath.parse s = Except.error RpcError.pathParse := by
  simp [GrpcPath.parse, rsplitOnce_eq_none h]

lemma GrpcPath.parse_no_dot {s sp m : Str} (he : stripSlash s = sp ++ '/' :: m)
    (hm : '/' ∉ m) (hd : '.' ∉ sp) :
    GrpcPath.parse s = Except.error RpcError.pathParse := by
  simp [GrpcPath.parse, he, rsplitOnce_last sp hm, rsplitOnce_eq_none hd]

lemma GrpcPath.parse_render_ok {pk sv m : Str}
    (hpk : pk ≠ []) (hpks : '/' ∉ pk)
    (hsv : sv ≠ []) (hsvd : '.' ∉ sv)
    (hm : m ≠ []) (hms : '/' ∉ m) :
    GrpcPath.parse ((pk ++ '.' :: sv) ++ '/' :: m) = Except.ok ⟨pk, sv, m⟩ := by
  have hstrip : stripSlash ((pk ++ '.' :: sv) ++ '/' :: m)
      = (pk ++ '.' :: sv) ++ '/' :: m := by
    apply stripSlash_of_head
    cases pk with
    | nil => exact absurd rfl hpk
    | cons c cs =>
      have : ¬ c = '/' := fun e => hpks (by simp [e])
      simp [this]
  simp only [GrpcPath.parse, hstrip, rsplitOnce_last (pk ++ '.' :: sv) hms,
    rsplitOnce_last pk hsvd]
  simp [hpk, hsv, hm]

lemma RpcRequestPath.parse_render {cid pk sv m : Str}
    (hcid : cid ≠ []) (hcidh : cid.head? ≠ some '/')
    (hpk : pk ≠ []) (hpks : '/' ∉ pk)
    (hsv : sv ≠ []) (hsvd : '.' ∉ sv) (hsvs : '/' ∉ sv)
    (hm : m ≠ []) (hms : '/' ∉ m) :
    RpcRequestPath.parse (renderRequestPath cid pk sv m)
      = Except.ok ⟨cid, ⟨pk, sv, m⟩⟩ := by
  have hstrip : stripSlash (renderRequestPath cid pk sv m)
      = renderRequestPath cid pk sv m := by
    apply stripSlash_of_head
    cases cid with
    | nil => exact absurd rfl hcid
    | cons c cs =>
      have hc : ¬ c = '/' := fun e => hcidh (by simp [e])
      intro e
      have e2 : (renderRequestPath (c :: cs) pk sv m).head? = some c := rfl
      rw [e2] at e
      simp at e
      exact hc e
  have hmid : '/' ∉ pk ++ '.' :: sv := by
    intro hx
    rcases List.mem_append.mp hx with hx | hx
    · exact hpks hx
    · rcases List.mem_cons.mp hx with e | hx
      · exact absurd e (by decide)
      · exact hsvs hx
  have hparts : splitChar '/' (renderRequestPath cid pk sv m)
      = splitChar '/' cid ++ [pk ++ '.' :: sv, m] := by
    have e1 : renderRequestPath cid pk sv m
        = cid ++ '/' :: ((pk ++ '.' :: sv) ++ '/' :: m) := by
      simp [renderRequestPath]
    rw [e1, splitChar_append, splitChar_append,
      splitChar_not_mem hmid, splitChar_not_mem hms]
    rfl
  have hrev : (splitChar '/' (renderRequestPath cid pk sv m)).reverse
      = m :: (pk ++ '.' :: sv) :: (splitChar '/' cid).reverse := by
    rw [hparts]
    simp
  simp only [RpcRequestPath.parse, hstrip, hrev]
  try dsimp only
  rw [if_pos (by simp : ('.' : Char) ∈ pk ++ '.' :: sv)]
  cases hx : (splitChar '/' cid).reverse with
  | nil =>
    exact absurd (List.reverse_eq_nil_iff.mp hx) (splitChar_ne_nil '/' cid)
  | cons x xs =>
    try dsimp only
    rw [GrpcPath.parse_render_ok hpk hpks hsv hsvd hm hms]
    try dsimp only
    have hrr : (x :: xs).reverse = splitChar '/' cid := by
      rw [← hx, List.reverse_reverse]
    rw [hrr, joinChar_splitChar]

lemma RpcRequestPath.parse_short {s : Str}
    (hlen : (splitChar '/' (stripSlash s)).length < 3) :
    RpcRequestPath.parse s = Except.error RpcError.pathParse := by
  have hlen3 : (splitChar '/' (stripSlash s)).reverse.length < 3 := by
    simpa using hlen
  cases hrev : (splitChar '/' (stripSlash s)).reverse with
  | nil => simp [RpcRequestPath.parse, hrev]
  | cons x t =>
    cases t with
    | nil => simp [RpcRequestPath.parse, hrev]
    | cons y u =>
      cases u with
      | nil =>
        by_cases hd : '.' ∈ y
        · simp [RpcRequestPath.parse, hrev, hd]
        · simp [RpcRequestPath.parse, hrev, hd]
      | cons z w =>
        rw [hrev] at hlen3
        simp at hlen3
        omega

lemma RpcRequestPath.parse_service_no_dot {s : Str} {mth sp : Str}
    {r : List Str}
    (hrev : (splitChar '/' (stripSlash s)).reverse = mth :: sp :: r)
    (hd : '.' ∉ sp) :
    RpcRequestPath.parse s = Except.error RpcError.pathParse := by
  simp [RpcRequestPath.parse, hrev, hd]

lemma RpcRequestPath.parse_client_id {s : Str} {rp : RpcRequestPath}
    (h : RpcRequestPath.parse s = Except.ok rp)
    (hh : (stripSlash s).head? ≠ some '/') :
    rp.client_id ≠ [] := by
  cases hp : stripSlash s with
  | nil => simp [RpcRequestPath.parse, hp, splitChar] at h
  | cons c p' =>
    have hc : ¬ c = '/' := fun e => hh (by rw [hp]; simp [e])
    obtain ⟨s0, ss, hsp⟩ := splitChar_cons_head hc p'
    cases hrev : ((c :: s0) :: ss).reverse with
    | nil => simp at hrev
    | cons mth t =>
      cases t with
      | nil =>
        -- only one segment: the parser rejects, contradicting h
        rw [RpcRequestPath.parse, hp, hsp, hrev] at h
        simp at h
      | cons sp r =>
        rw [RpcRequestPath.parse, hp, hsp, hrev] at h
        try dsimp only at h
        by_cases hd : '.' ∈ sp
        · rw [if_pos hd] at h
          cases r with
          | nil => simp at h
          | cons x xs =>
            try dsimp only at h
            cases hg : GrpcPath.parse (sp ++ '/' :: mth) with
            | error e => rw [hg] at h; simp at h
            | ok g =>
              rw [hg] at h
              simp only [Except.ok.injEq] at h
              subst h
              -- rp.client_id = joinChar '/' (x :: xs).reverse
              have e0 : (c :: s0) :: ss = ((x :: xs).reverse) ++ [sp, mth] := by
                have := congrArg List.reverse hrev
                simpa using this
              cases hr2 : (x :: xs).reverse with
              | nil => simp at hr2
              | cons h0 t0 =>
                rw [hr2] at e0
                simp only [List.cons_append, List.cons.injEq] at e0
                obtain ⟨e0h, _⟩ := e0
                show joinChar '/' (h0 :: t0) ≠ []
                rw [← e0h]
                exact joinChar_cons_ne_nil (by simp) t0
        · rw [if_neg hd] at h
          simp at h

/-! ### Lemmas about the session registry -/

lemma findGuard_mem {g : Nat} :
    ∀ {l : List (Nat × SessionKey)} {k : SessionKey},
    findGuard g l = some k → (g, k) ∈ l := by
  intro l
  induction l with
  | nil => intro k h; simp [findGuard] at h
  | cons q qs ih =>
    intro k h
    simp only [findGuard] at h
    by_cases hq : q.1 = g
    · rw [if_pos hq] at h
      simp only [Option.some.injEq] at h
      have : q = (g, k) := by
        obtain ⟨q1, q2⟩ := q
        simp only at hq h
        rw [hq, h]
      exact this ▸ List.mem_cons_self q qs
    · rw [if_neg hq] at h
      exact List.mem_cons_of_mem _ (ih h)


lemma removeKey_sublist (k : SessionKey) :
    ∀ l : List SessionKey, List.Sublist (removeKey k l) l := by
  intro l
  induction l with
  | nil => exact List.Sublist.refl []
  | cons x xs ih =>
    by_cases hx : x = k
    · simp only [removeKey, if_pos hx]
      exact ih.cons x
    · simp only [removeKey, if_neg hx]
      exact ih.cons₂ x

lemma removeGuard_sublist (g : Nat) :
    ∀ l : List (Nat × SessionKey), List.Sublist (removeGuard g l) l := by
  intro l
  induction l with
  | nil => exact List.Sublist.refl []
  | cons q qs ih =>
    by_cases hq : q.1 = g
    · simp only [removeGuard, if_pos hq]
      exact ih.cons q
    · simp only [removeGuard, if_neg hq]
      exact ih.cons₂ q

lemma removeKey_eq_self {k : SessionKey} :
    ∀ {l : List SessionKey}, k ∉ l → removeKey k l = l := by
  intro l
  induction l with
  | nil => intro _; rfl
  | cons x xs ih =>
    intro h
    have hx : ¬ x = k := fun e => h (by simp [e])
    have hxs : k ∉ xs := fun m => h (List.mem_cons_of_mem _ m)
    simp [removeKey, hx, ih hxs]

lemma removeGuard_eq_self {g : Nat} :
    ∀ {l : List (Nat × SessionKey)}, g ∉ l.map Prod.fst →
    removeGuard g l = l := by
  intro l
  induction l with
  | nil => intro _; rfl
  | cons q qs ih =>
    intro h
    have hq : ¬ q.1 = g := fun e => h (by simp [← e])
    have hqs : g ∉ qs.map Prod.fst := fun m => h (by simp [List.mem_cons]; right; simpa using m)
    simp [removeGuard, hq, ih hqs]

lemma not_mem_removeKey_self (k : SessionKey) :
    ∀ l : List SessionKey, k ∉ removeKey k l := by
  intro l
  induction l with
  | nil => simp [removeKey]
  | cons x xs ih =>
    by_cases hx : x = k
    · simpa [removeKey, hx] using ih
    · simp only [removeKey, if_neg hx]
      intro hm
      rcases List.mem_cons.mp hm with e | hm'
      · exact hx e.symm
      · exact ih hm'

lemma map_snd_removeGuard :
    ∀ (l : List (Nat × SessionKey)) (g : Nat) (k : SessionKey),
    (l.map Prod.fst).Nodup → (l.map Prod.snd).Nodup →
    findGuard g l = some k →
    (removeGuard g l).map Prod.snd = removeKey k (l.map Prod.snd) := by
  intro l
  induction l with
  | nil => intro g k _ _ h; simp [findGuard] at h
  | cons q qs ih =>
    intro g k hids hkeys hf
    have hids' : (qs.map Prod.fst).Nodup :=
      (List.nodup_cons.mp (by simpa using hids)).2
    have hkeys' : (qs.map Prod.snd).Nodup :=
      (List.nodup_cons.mp (by simpa using hkeys)).2
    simp only [findGuard] at hf
    by_cases hq : q.1 = g
    · rw [if_pos hq] at hf
      have hk : q.2 = k := by simpa using hf
      have hg2 : g ∉ qs.map Prod.fst := by
        rw [← hq]
        exact (List.nodup_cons.mp (by simpa using hids)).1
      have hk2 : k ∉ qs.map Prod.snd := by
        rw [← hk]
        exact (List.nodup_cons.mp (by simpa using hkeys)).1
      rw [show removeGuard g (q :: qs) = removeGuard g qs from by
            simp [removeGuard, hq],
          removeGuard_eq_self hg2,
          show (q :: qs).map Prod.snd = q.2 :: qs.map Prod.snd from rfl,
          show removeKey k (q.2 :: qs.map Prod.snd)
              = removeKey k (qs.map Prod.snd) from by simp [removeKey, hk],
          removeKey_eq_self hk2]
    · rw [if_neg hq] at hf
      have hmem : (g, k) ∈ qs := findGuard_mem hf
      have hkin : k ∈ qs.map Prod.snd := by
        simpa using List.mem_map_of_mem Prod.snd hmem
      have hq2 : ¬ q.2 = k := by
        intro e
        exact (List.nodup_cons.mp (by simpa using hkeys)).1 (e ▸ hkin)
      rw [show removeGuard g (q :: qs) = q :: removeGuard g qs from by
            simp [removeGuard, hq],
          show (q :: removeGuard g qs).map Prod.snd
              = q.2 :: (removeGuard g qs).map Prod.snd from rfl,
          show (q :: qs).map Prod.snd = q.2 :: qs.map Prod.snd from rfl,
          show removeKey k (q.2 :: qs.map Prod.snd)
              = q.2 :: removeKey k (qs.map Prod.snd) from by
            simp [removeKey, hq2],
          ih g k hids' hkeys' hf]

lemma SessionMapState.applyOp_inv (st : SessionMapState) (op : SessionOp)
    (h : st.Inv) : (st.applyOp op).Inv := by
  obtain ⟨h1, h2, h3, h4⟩ := h
  cases op with
  | create k =>
    simp only [SessionMapState.applyOp, SessionMapState.try_create]
    by_cases hk : k ∈ st.sessions
    · rw [if_pos hk]
      exact ⟨h1, h2, h3, h4⟩
    · rw [if_neg hk]
      refine ⟨by simpa using h1, ?_, ?_, ?_⟩
      · simp only [List.map_cons, List.nodup_cons]
        refine ⟨fun hm => ?_, h2⟩
        obtain ⟨q, hq, he⟩ := List.mem_map.mp hm
        exact absurd (he ▸ h4 q hq) (lt_irrefl _)
      · exact List.nodup_cons.mpr ⟨hk, h3⟩
      · intro q hq
        rcases List.mem_cons.mp hq with e | hm
        · rw [e]; exact Nat.lt_succ_self _
        · exact Nat.lt_succ_of_lt (h4 q hm)
  | dropg g =>
    simp only [SessionMapState.applyOp, SessionMapState.drop_guard]
    cases hf : findGuard g st.guards with
    | none => exact ⟨h1, h2, h3, h4⟩
    | some k =>
      have hkeys : (st.guards.map Prod.snd).Nodup := h1 ▸ h3
      refine ⟨?_, ?_, ?_, ?_⟩
      · rw [map_snd_removeGuard st.guards g k h2 hkeys hf, h1]
      · exact h2.sublist ((removeGuard_sublist g st.guards).map Prod.fst)
      · exact h3.sublist (removeKey_sublist k st.sessions)
      · intro q hq
        exact h4 q ((removeGuard_sublist g st.guards).mem hq)

lemma foldl_applyOp_inv :
    ∀ (ops : List SessionOp) (st : SessionMapState), st.Inv →
    (ops.foldl SessionMapState.applyOp st).Inv := by
  intro ops
  induction ops with
  | nil => intro st h; exact h
  | cons op ops ih =>
    intro st h
    exact ih _ (SessionMapState.applyOp_inv st op h)

lemma runSessionOps_inv (ops : List SessionOp) : (runSessionOps ops).Inv :=
  foldl_applyOp_inv ops SessionMapState.init
    ⟨rfl, List.nodup_nil, List.nodup_nil, by simp [SessionMapState.init]⟩

/-! ### Lemmas about the handler task and the decoded inbound stream -/

lemma drainResponses_ok_all {σ α : Type} (f : α → Bool) :
    ∀ (pre : List α), (∀ x ∈ pre, f x = true) →
    ∀ rest : List (Except σ α),
    TypedHandler.drainResponses f (pre.map Except.ok ++ rest)
      = pre.map TaskEvent.send ++ TypedHandler.drainResponses f rest := by
  intro pre
  induction pre with
  | nil => intro _ rest; rfl
  | cons x xs ih =>
    intro h rest
    have hx : f x = true := h x (List.mem_cons_self x xs)
    simp only [List.map_cons, List.cons_append, TypedHandler.drainResponses,
      hx, if_true]
    rw [show TypedHandler.drainResponses f ((List.map Except.ok xs).append rest)
          = List.map TaskEvent.send xs ++ TypedHandler.drainResponses f rest from
        ih (fun y hy => h y (List.mem_cons_of_mem x hy)) rest]

lemma DecodedInbound.run_ok_all {ε β ρ : Type} (dec : β → Option ρ) :
    ∀ (pre : List β), (∀ x ∈ pre, (dec x).isSome = true) →
    ∀ rest : List (Except ε β),
    DecodedInbound.run dec (pre.map Except.ok ++ rest)
      = (pre.filterMap dec ++ (DecodedInbound.run dec rest).1,
         (DecodedInbound.run dec rest).2) := by
  intro pre
  induction pre with
  | nil => intro _ rest; simp
  | cons x xs ih =>
    intro h rest
    obtain ⟨m, hm⟩ := Option.isSome_iff_exists.mp
      (h x (List.mem_cons_self x xs))
    have ih' := ih (fun y hy => h y (List.mem_cons_of_mem x hy)) rest
    simp only [List.map_cons, List.cons_append, DecodedInbound.run, hm, ih']
    simp [List.filterMap_cons, hm, ih']

lemma DecodedInbound.run_append_error {ε β ρ : Type} (dec : β → Option ρ) :
    ∀ (fs : List (Except ε β)) (e : ε) (rest : List (Except ε β)),
    DecodedInbound.run dec (fs ++ Except.error e :: rest)
      = DecodedInbound.run dec fs := by
  intro fs
  induction fs with
  | nil => intro e rest; rfl
  | cons x fs ih =>
    intro e rest
    cases x with
    | ok b =>
      simp only [List.cons_append, DecodedInbound.run]
      cases hb : dec b with
      | some m => simp [ih]
      | none => rfl
    | error e2 => rfl

/-! ### Lemmas about the router run loop -/

lemma runLoop_ok (handlers : List Str) (config : RpcRouterConfig)
    (createOk : Str → Bool) :
    ∀ (anns : List Announcement) (sessions : List SessionKey),
    RpcRouter.runLoop handlers config createOk sessions anns
      = Except.ok () := by
  intro anns
  induction anns with
  | nil => intro sessions; rfl
  | cons a rest ih =>
    intro sessions
    cases a with
    | appeared p =>
      simp only [RpcRouter.runLoop]
      exact ih _
    | departed p =>
      simp only [RpcRouter.runLoop]
      exact ih _

/-! ### Claim theorems -/

/-- Claim C3: the wire error codec round-trips, `from_code (to_code e) = e`,
for every enumerated error kind (the five reserved kinds carrying fixed
codes 1-5), and every inbound code outside the reserved range 1-5 is
preserved as `Unknown(code)`; both directions are total Lean functions by
construction. -/
theorem claim_C3 :
    (∀ e ∈ [RpcWireError.noHandler, RpcWireError.sessionAlreadyActive,
        RpcWireError.decode, RpcWireError.grpc, RpcWireError.internal],
      RpcWireError.from_code (RpcWireError.to_code e) = e)
    ∧ (∀ c : Nat, ¬(1 ≤ c ∧ c ≤ 5) →
        RpcWireError.from_code c = RpcWireError.unknown c) := by
  constructor
  · intro e he
    fin_cases he <;> rfl
  · intro c hc
    simp only [RpcWireError.from_code]
    split_ifs with h1 h2 h3 h4 h5
    · exact absurd ⟨by omega, by omega⟩ hc
    · exact absurd ⟨by omega, by omega⟩ hc
    · exact absurd ⟨by omega, by omega⟩ hc
    · exact absurd ⟨by omega, by omega⟩ hc
    · exact absurd ⟨by omega, by omega⟩ hc
    · rfl

/-- Witness for C3 at concrete inputs: the `Decode` kind round-trips, and
the out-of-range code 9 is preserved as `Unknown 9`. -/
theorem claim_C3_witness :
    RpcWireError.from_code (RpcWireError.to_code RpcWireError.decode)
        = RpcWireError.decode
    ∧ RpcWireError.from_code 9 = RpcWireError.unknown 9 :=
  ⟨claim_C3.1 RpcWireError.decode (by simp),
   claim_C3.2 9 (by omega)⟩

/-- Claim C7: `GrpcPath::parse` strips one optional leading `/`, splits at
the last `/` (so the method contains no `/`), splits the remainder at its
last `.` (so the service contains no `.`), requires all components
non-empty, rejects inputs without `/` or whose service path lacks `.`,
rejects empty package, service or method, and parses the nested package
`a.b.c.Service/M` as package `a.b.c`, service `Service`. -/
theorem claim_C7 :
    (∀ (s : Str) (g : GrpcPath), GrpcPath.parse s = Except.ok g →
        stripSlash s = g.package ++ '.' :: g.service ++ '/' :: g.method
        ∧ g.package ≠ [] ∧ g.service ≠ [] ∧ g.method ≠ []
        ∧ '.' ∉ g.service ∧ '/' ∉ g.method)
    ∧ (∀ s : Str, '/' ∉ stripSlash s →
        GrpcPath.parse s = Except.error RpcError.pathParse)
    ∧ (∀ s sp m : Str, stripSlash s = sp ++ '/' :: m → '/' ∉ m →
        '.' ∉ sp → GrpcPath.parse s = Except.error RpcError.pathParse)
    ∧ GrpcPath.parse
        ['a', '.', 'b', '.', 'c', '.', 'S', 'e', 'r', 'v', 'i', 'c', 'e',
         '/', 'M']
      = Except.ok ⟨['a', '.', 'b', '.', 'c'],
          ['S', 'e', 'r', 'v', 'i', 'c', 'e'], ['M']⟩
    ∧ GrpcPath.parse ['.', 'S', '/', 'M'] = Except.error RpcError.pathParse
    ∧ GrpcPath.parse ['p', '.', '/', 'M'] = Except.error RpcError.pathParse
    ∧ GrpcPath.parse ['p', '.', 'S', '/'] = Except.error RpcError.pathParse
    ∧ GrpcPath.parse ['p', '.', 'S'] = Except.error RpcError.pathParse
    ∧ GrpcPath.parse ['p', 's', '/', 'M'] = Except.error RpcError.pathParse :=
  ⟨fun s g h => GrpcPath.parse_sound h,
   fun s h => GrpcPath.parse_no_slash h,
   fun s sp m h1 h2 h3 => GrpcPath.parse_no_dot h1 h2 h3,
   by decide, by decide, by decide, by decide, by decide, by decide⟩

/-- Witness for C7 at a concrete input: `p.S` (no `/`) satisfies the
rejection hypothesis and is rejected. -/
theorem claim_C7_witness :
    ('/' ∉ stripSlash (['p', '.', 'S'] : Str))
    ∧ GrpcPath.parse ['p', '.', 'S'] = Except.error RpcError.pathParse :=
  ⟨by decide, claim_C7.2.1 ['p', '.', 'S'] (by decide)⟩

/-- Counterexample to claim C4 as stated: the claim's validity conditions
allow a client id beginning with `/` and a package containing `/`, but
round-tripping fails for both: `(cid "/a", pkg "p", svc "S", method "M")`
renders to `"/a/p.S/M"`, which parses with client id `"a"`, and
`(cid "c", pkg "p/q", svc "S", method "M")` renders to `"c/p/q.S/M"`,
which parses with client id `"c/p"` and package `"q"`. -/
theorem claim_C4_counterexample : ¬ claimC4Statement := by
  intro h
  have h1 := h ['/', 'a'] ['p'] ['S'] ['M'] (by decide) (by decide)
    (by decide) (by decide) (by decide) (by decide) (by decide)
  have h2 : RpcRequestPath.parse (renderRequestPath ['/', 'a'] ['p'] ['S'] ['M'])
      = Except.ok ⟨['a'], ⟨['p'], ['S'], ['M']⟩⟩ := by decide
  rw [h2] at h1
  exact absurd h1 (by decide)

/-- Claim C4, amended: the round-trip additionally needs the client id
not to begin with `/` (one leading `/` is stripped by the parser) and the
package to contain no `/` (the method split takes the last `/`);
with those, parsing the rendering yields exactly the four components, and
client ids with embedded `/` are reassembled intact. -/
theorem claim_C4_amended :
    ∀ cid pk sv m : Str,
    cid ≠ [] → cid.head? ≠ some '/' →
    pk ≠ [] → '/' ∉ pk →
    sv ≠ [] → '.' ∉ sv → '/' ∉ sv →
    m ≠ [] → '/' ∉ m →
    RpcRequestPath.parse (renderRequestPath cid pk sv m)
      = Except.ok ⟨cid, ⟨pk, sv, m⟩⟩ :=
  fun _ _ _ _ h1 h2 h3 h4 h5 h6 h7 h8 h9 =>
    RpcRequestPath.parse_render h1 h2 h3 h4 h5 h6 h7 h8 h9

/-- Witness for the amended C4 at a concrete input with an embedded `/`
in the client id: `r/f/drone-1/drone.Echo/Echo` round-trips, client id
`r/f` preserved. -/
theorem claim_C4_amended_witness :
    RpcRequestPath.parse (renderRequestPath ['r', '/', 'f'] ['d'] ['E'] ['M'])
      = Except.ok ⟨['r', '/', 'f'], ⟨['d'], ['E'], ['M']⟩⟩ :=
  claim_C4_amended ['r', '/', 'f'] ['d'] ['E'] ['M'] (by decide) (by decide)
    (by decide) (by decide) (by decide) (by decide) (by decide) (by decide)
    (by decide)

/-- Counterexample to claim C8 as stated: the input `"//b.c/d"` is
accepted by `RpcRequestPath::parse` (the leading `/` is stripped, leaving
segments `["", "b.c", "d"]`) and yields the empty client id, violating
the non-empty-client-id part of the claim. -/
theorem claim_C8_counterexample : ¬ claimC8Statement := by
  intro h
  have h3 := (h ['/', '/', 'b', '.', 'c', '/', 'd']).2.2
  have he : RpcRequestPath.parse ['/', '/', 'b', '.', 'c', '/', 'd']
      = Except.ok ⟨[], ⟨['b'], ['c'], ['d']⟩⟩ := by decide
  exact h3 _ he rfl

/-- Claim C8, amended: the two rejection properties hold as stated, and
the accepted client id is non-empty provided the input after stripping
one leading `/` does not itself begin with `/` (an input like `//b.c/d`
is accepted with an empty client id). -/
theorem claim_C8_amended :
    ∀ s : Str,
    ((splitChar '/' (stripSlash s)).length < 3 →
      RpcRequestPath.parse s = Except.error RpcError.pathParse)
    ∧ (∀ mth sp r, (splitChar '/' (stripSlash s)).reverse = mth :: sp :: r →
        '.' ∉ sp → RpcRequestPath.parse s = Except.error RpcError.pathParse)
    ∧ (∀ rp, RpcRequestPath.parse s = Except.ok rp →
        (stripSlash s).head? ≠ some '/' → rp.client_id ≠ []) :=
  fun _ => ⟨fun h => RpcRequestPath.parse_short h,
    fun _ _ _ h1 h2 => RpcRequestPath.parse_service_no_dot h1 h2,
    fun _ h1 h2 => RpcRequestPath.parse_client_id h1 h2⟩

/-- Witness for the amended C8 at concrete inputs: `"a/b"` has fewer than
three segments and is rejected; `"d1/a.B/M"` is accepted and its client
id `d1` is non-empty. -/
theorem claim_C8_amended_witness :
    RpcRequestPath.parse ['a', '/', 'b'] = Except.error RpcError.pathParse
    ∧ (⟨['d', '1'], ⟨['a'], ['B'], ['M']⟩⟩ : RpcRequestPath).client_id ≠ [] :=
  ⟨(claim_C8_amended ['a', '/', 'b']).1 (by decide),
   (claim_C8_amended ['d', '1', '/', 'a', '.', 'B', '/', 'M']).2.2
     ⟨['d', '1'], ⟨['a'], ['B'], ['M']⟩⟩ (by decide) (by decide)⟩

/-- Claim C5: over every trace of `try_create` and guard-drop operations
(any interleaving of any number of tasks), the registry length equals the
number of live guards; `try_create(k)` fails exactly while a live guard
for `k` exists (so it succeeds at most once until that guard is dropped,
and a `try_create(k)` immediately after a `try_create(k)` fails); and
dropping a live guard for `k` evicts `k`, after which `contains k` is
false and a new `try_create(k)` succeeds. -/
theorem claim_C5 :
    ∀ ops : List SessionOp,
    (runSessionOps ops).len = (runSessionOps ops).guards.length
    ∧ (∀ k, ((runSessionOps ops).try_create k).1 = none
        ↔ ∃ g, (g, k) ∈ (runSessionOps ops).guards)
    ∧ (∀ k, ((runSessionOps (ops ++ [SessionOp.create k])).try_create k).1
        = none)
    ∧ (∀ g k, findGuard g (runSessionOps ops).guards = some k →
        (runSessionOps (ops ++ [SessionOp.dropg g])).contains k = false
        ∧ ((runSessionOps (ops ++ [SessionOp.dropg g])).try_create k).1
            ≠ none) := by
  intro ops
  obtain ⟨h1, h2, h3, h4⟩ := runSessionOps_inv ops
  refine ⟨?_, ?_, ?_, ?_⟩
  · simp [SessionMapState.len, h1]
  · intro k
    constructor
    · intro hn
      by_cases hk : k ∈ (runSessionOps ops).sessions
      · rw [h1] at hk
        obtain ⟨q, hq, he⟩ := List.mem_map.mp hk
        exact ⟨q.1, by rw [show (q.1, k) = q from by rw [← he]]; exact hq⟩
      · simp [SessionMapState.try_create, hk] at hn
    · intro ⟨g, hg⟩
      have hk : k ∈ (runSessionOps ops).sessions := by
        rw [h1]
        exact List.mem_map.mpr ⟨(g, k), hg, rfl⟩
      simp [SessionMapState.try_create, hk]
  · intro k
    have he : runSessionOps (ops ++ [SessionOp.create k])
        = ((runSessionOps ops).try_create k).2 := by
      simp [runSessionOps, List.foldl_append, SessionMapState.applyOp]
    rw [he]
    by_cases hk : k ∈ (runSessionOps ops).sessions
    · simp [SessionMapState.try_create, hk]
    · simp [SessionMapState.try_create, hk]
  · intro g k hf
    have he : runSessionOps (ops ++ [SessionOp.dropg g])
        = (runSessionOps ops).drop_guard g := by
      simp [runSessionOps, List.foldl_append, SessionMapState.applyOp]
    rw [he]
    simp only [SessionMapState.drop_guard, hf]
    have hnm : k ∉ removeKey k (runSessionOps ops).sessions :=
      not_mem_removeKey_self k (runSessionOps ops).sessions
    constructor
    · simp [SessionMapState.contains, hnm]
    · simp [SessionMapState.try_create, hnm]

/-- Witness for C5 at a concrete trace: create the key `(d, m)` (guard id
0), drop the guard; the key is evicted. -/
theorem claim_C5_witness :
    (runSessionOps ([SessionOp.create ⟨['d'], ['m']⟩]
        ++ [SessionOp.dropg 0])).contains ⟨['d'], ['m']⟩ = false :=
  ((claim_C5 [SessionOp.create ⟨['d'], ['m']⟩]).2.2.2 0 ⟨['d'], ['m']⟩
    (by decide)).1

/-- Counterexample to claim C1 as stated: on the bad path `"x"`
(`RpcRequestPath::parse` fails), `handle_announcement` returns before
creating the response broadcast, so nothing is published and no track is
aborted, contradicting the claim's "still publishes the response
broadcast ... and immediately aborts". -/
theorem claim_C1_counterexample : ¬ claimC1Statement := by
  intro h
  have hcl := h [] [] ⟨none, ['s'], ['p']⟩ (fun _ => true) ['x']
  have hout : RpcRouter.handle_announcement [] [] ⟨none, ['s'], ['p']⟩
      (fun _ => true) ['x']
      = ([], Except.error (RpcServerError.path RpcError.pathParse), []) := by
    decide
  simp only [hout] at hcl
  have hc2 := hcl (Or.inl ⟨RpcError.pathParse, trivial⟩)
  simp at hc2

/-- Claim C1, amended: for the failures that occur after the path parses
- no handler registered, duplicate session - the router has already
published the response broadcast at the server path and immediately
aborts its single track with the corresponding wire code (NoHandler = 1,
SessionAlreadyActive = 2); on a bad path `handle_announcement` returns
before creating the response broadcast, publishing nothing. -/
theorem claim_C1_amended :
    ∀ (handlers : List Str) (sessions : List SessionKey)
      (config : RpcRouterConfig) (createOk : Str → Bool) (path : Str),
    (∀ g, (RpcRouter.handle_announcement handlers sessions config createOk
          path).2.1 = Except.error (RpcServerError.noHandler g) →
      ∃ rp, RpcRequestPath.parse path = Except.ok rp
        ∧ (RpcRouter.handle_announcement handlers sessions config createOk
            path).1
          = [RouterEvent.createBroadcast
              (config.response_path rp.client_id rp.grpc_path.full_path),
             RouterEvent.abortApp 1])
    ∧ (∀ c gp, (RpcRouter.handle_announcement handlers sessions config
          createOk path).2.1
        = Except.error (RpcServerError.sessionAlreadyActive c gp) →
      ∃ rp, RpcRequestPath.parse path = Except.ok rp
        ∧ (RpcRouter.handle_announcement handlers sessions config createOk
            path).1
          = [RouterEvent.createBroadcast
              (config.response_path rp.client_id rp.grpc_path.full_path),
             RouterEvent.abortApp 2])
    ∧ (∀ e, RpcRequestPath.parse path = Except.error e →
        (RpcRouter.handle_announcement handlers sessions config createOk
          path).1 = []) := by
  intro handlers sessions config createOk path
  cases hp : RpcRequestPath.parse path with
  | error e =>
    refine ⟨?_, ?_, ?_⟩
    · intro g hg
      simp [RpcRouter.handle_announcement, hp] at hg
    · intro c gp hg
      simp [RpcRouter.handle_announcement, hp] at hg
    · intro e2 _
      simp [RpcRouter.handle_announcement, hp]
  | ok rp =>
    by_cases h1 : createOk (config.response_path rp.client_id
        rp.grpc_path.full_path)
    · by_cases h2 : rp.grpc_path.full_path ∈ handlers
      · by_cases h3 : (⟨rp.client_id, rp.grpc_path.full_path⟩ : SessionKey)
            ∈ sessions
        · refine ⟨?_, ?_, ?_⟩
          · intro g hg
            simp [RpcRouter.handle_announcement, hp, h1, h2, h3] at hg
          · intro c gp hg
            refine ⟨rp, rfl, ?_⟩
            simp [RpcRouter.handle_announcement, hp, h1, h2, h3,
              RpcWireError.to_code]
          · intro e2 he2
            simp at he2
        · refine ⟨?_, ?_, ?_⟩
          · intro g hg
            simp [RpcRouter.handle_announcement, hp, h1, h2, h3] at hg
          · intro c gp hg
            simp [RpcRouter.handle_announcement, hp, h1, h2, h3] at hg
          · intro e2 he2
            simp at he2
      · refine ⟨?_, ?_, ?_⟩
        · intro g hg
          refine ⟨rp, rfl, ?_⟩
          simp [RpcRouter.handle_announcement, hp, h1, h2,
            RpcWireError.to_code]
        · intro c gp hg
          simp [RpcRouter.handle_announcement, hp, h1, h2] at hg
        · intro e2 he2
          simp at he2
    · refine ⟨?_, ?_, ?_⟩
      · intro g hg
        simp [RpcRouter.handle_announcement, hp, h1] at hg
      · intro c gp hg
        simp [RpcRouter.handle_announcement, hp, h1] at hg
      · intro e2 he2
        simp at he2

/-- Witness for the amended C1 at a concrete announcement: no handler is
registered for `a.B/M`, so the router publishes `s/d/a.B/M` and aborts
with wire code 1. -/
theorem claim_C1_amended_witness :
    ∃ rp, RpcRequestPath.parse ['d', '/', 'a', '.', 'B', '/', 'M']
        = Except.ok rp
      ∧ (RpcRouter.handle_announcement [] [] ⟨none, ['s'], ['t']⟩
          (fun _ => true) ['d', '/', 'a', '.', 'B', '/', 'M']).1
        = [RouterEvent.createBroadcast
            ((⟨none, ['s'], ['t']⟩ : RpcRouterConfig).response_path
              rp.client_id rp.grpc_path.full_path),
           RouterEvent.abortApp 1] :=
  (claim_C1_amended [] [] ⟨none, ['s'], ['t']⟩ (fun _ => true)
      ['d', '/', 'a', '.', 'B', '/', 'M']).1 ['a', '.', 'B', '/', 'M']
    (by decide)

/-- Claim C9: the router's `run` loop never terminates because of a
single-call error - over every finite announcement sequence it returns
`Ok` at end of stream, whatever the per-announcement outcomes - and it
returns an error exactly for the startup configuration failure: a
configured client prefix the relay refuses, surfaced as `Unauthorized`. -/
theorem claim_C9 :
    ∀ (authorized : Bool) (handlers : List Str) (config : RpcRouterConfig)
      (createOk : Str → Bool) (anns : List Announcement),
    ((∃ r, config.client_root = some r) → authorized = false →
      RpcRouter.run authorized handlers config createOk anns
        = Except.error RpcServerError.unauthorized)
    ∧ ((config.client_root = none ∨ authorized = true) →
      RpcRouter.run authorized handlers config createOk anns
        = Except.ok ()) := by
  intro authorized handlers config createOk anns
  constructor
  · intro ⟨r, hr⟩ hauth
    simp [RpcRouter.run, hr, hauth]
  · intro h
    cases hr : config.client_root with
    | none => simp [RpcRouter.run, hr, runLoop_ok]
    | some r =>
      rcases h with h | h
      · rw [hr] at h; cases h
      · simp [RpcRouter.run, hr, h, runLoop_ok]

/-- Witness for C9 at a concrete configuration and announcement list:
with a client prefix configured, an unauthorized relay yields
`Unauthorized`; an authorized one runs to end of stream and returns `Ok`,
although the single announcement fails (no handler). -/
theorem claim_C9_witness :
    RpcRouter.run false [] ⟨some ['c'], ['s'], ['t']⟩ (fun _ => true)
        [Announcement.appeared ['x']]
      = Except.error RpcServerError.unauthorized
    ∧ RpcRouter.run true [] ⟨some ['c'], ['s'], ['t']⟩ (fun _ => true)
        [Announcement.appeared ['x']]
      = Except.ok () :=
  ⟨(claim_C9 false [] ⟨some ['c'], ['s'], ['t']⟩ (fun _ => true)
      [Announcement.appeared ['x']]).1 ⟨['c'], rfl⟩ rfl,
   (claim_C9 true [] ⟨some ['c'], ['s'], ['t']⟩ (fun _ => true)
      [Announcement.appeared ['x']]).2 (Or.inr rfl)⟩

/-- Claim C2: in the spawned handler task, a connector error aborts the
outbound track with code Grpc (4) and exits; while draining the response
stream, each `Ok(msg)` is sent in order, a send failure aborts with code
Internal (5) and exits, a stream-side error aborts with code Grpc (4) and
exits, and a clean end of the stream produces the sends with no abort. -/
theorem claim_C2 :
    ∀ (σ α : Type) (f : α → Bool),
    (∀ e : σ, TypedHandler.spawn_handler (Except.error e) f
        = [TaskEvent.abort 4])
    ∧ (∀ msgs : List α, (∀ x ∈ msgs, f x = true) →
        TypedHandler.spawn_handler (σ := σ)
            (Except.ok (msgs.map Except.ok)) f
          = msgs.map TaskEvent.send)
    ∧ (∀ (pre : List α) (m : α) (rest : List (Except σ α)),
        (∀ x ∈ pre, f x = true) → f m = false →
        TypedHandler.spawn_handler
            (Except.ok (pre.map Except.ok ++ Except.ok m :: rest)) f
          = pre.map TaskEvent.send ++ [TaskEvent.abort 5])
    ∧ (∀ (pre : List α) (e : σ) (rest : List (Except σ α)),
        (∀ x ∈ pre, f x = true) →
        TypedHandler.spawn_handler
            (Except.ok (pre.map Except.ok ++ Except.error e :: rest)) f
          = pre.map TaskEvent.send ++ [TaskEvent.abort 4]) := by
  intro σ α f
  refine ⟨fun e => rfl, ?_, ?_, ?_⟩
  · intro msgs h
    have hd := drainResponses_ok_all f msgs h ([] : List (Except σ α))
    simpa [TypedHandler.spawn_handler, TypedHandler.drainResponses] using hd
  · intro pre m rest h hm
    have hd := drainResponses_ok_all f pre h (Except.ok m :: rest)
    simp only [TypedHandler.spawn_handler]
    rw [hd]
    simp [TypedHandler.drainResponses, hm, RpcWireError.to_code]
  · intro pre e rest h
    have hd := drainResponses_ok_all f pre h (Except.error e :: rest)
    simp only [TypedHandler.spawn_handler]
    rw [hd]
    simp [TypedHandler.drainResponses, RpcWireError.to_code]

/-- Witness for C2 at concrete streams: two sendable messages are sent in
order with no abort; a failing send after one message aborts with 5; a
stream error after one message aborts with 4; a connector error aborts
with 4. -/
theorem claim_C2_witness :
    TypedHandler.spawn_handler (σ := Unit) (α := Nat)
        (Except.ok ([1, 2].map Except.ok)) (fun _ => true)
      = [TaskEvent.send 1, TaskEvent.send 2]
    ∧ TypedHandler.spawn_handler (σ := Unit) (α := Nat)
        (Except.ok ([1].map Except.ok ++ Except.ok 2 :: [])) (fun x => x = 1)
      = [TaskEvent.send 1, TaskEvent.abort 5]
    ∧ TypedHandler.spawn_handler (σ := Unit) (α := Nat)
        (Except.ok ([1].map Except.ok ++ Except.error () :: []))
        (fun _ => true)
      = [TaskEvent.send 1, TaskEvent.abort 4]
    ∧ TypedHandler.spawn_handler (σ := Unit) (α := Nat) (Except.error ())
        (fun _ => true)
      = [TaskEvent.abort 4] :=
  ⟨(claim_C2 Unit Nat (fun _ => true)).2.1 [1, 2] (by decide),
   (claim_C2 Unit Nat (fun x => decide (x = 1))).2.2.1 [1] 2 [] (by decide)
     (by decide),
   (claim_C2 Unit Nat (fun _ => true)).2.2.2 [1] () [] (by decide),
   (claim_C2 Unit Nat (fun _ => true)).1 ()⟩

/-- Claim C6: when a frame fails to decode, `DecodedInbound` yields the
messages decoded so far, terminates the sequence, and invokes the
`on_decode_error` callback exactly then (frames that all decode produce
no invocation); the hook the handler wires in aborts the outbound track
with code Decode (3). -/
theorem claim_C6 :
    ∀ (ε β ρ : Type) (dec : β → Option ρ),
    (∀ (pre : List β) (b : β) (rest : List (Except ε β)),
      (∀ x ∈ pre, (dec x).isSome = true) → dec b = none →
      DecodedInbound.run dec (pre.map Except.ok ++ Except.ok b :: rest)
        = (pre.filterMap dec, true))
    ∧ (∀ pre : List β, (∀ x ∈ pre, (dec x).isSome = true) →
      DecodedInbound.run (ε := ε) dec (pre.map Except.ok)
        = (pre.filterMap dec, false))
    ∧ TypedHandler.onDecodeError ρ = [TaskEvent.abort 3] := by
  intro ε β ρ dec
  refine ⟨?_, ?_, rfl⟩
  · intro pre b rest h hb
    rw [DecodedInbound.run_ok_all dec pre h (Except.ok b :: rest)]
    simp [DecodedInbound.run, hb]
  · intro pre h
    have hr := DecodedInbound.run_ok_all dec pre h ([] : List (Except ε β))
    simpa [DecodedInbound.run] using hr

/-- Witness for C6 at a concrete stream: one decodable frame then an
undecodable one yields the first message and invokes the callback. -/
theorem claim_C6_witness :
    DecodedInbound.run (ε := Unit)
        (fun b : Nat => if b = 0 then none else some b)
        ([1].map Except.ok ++ Except.ok 0 :: [])
      = ([1], true) :=
  (claim_C6 Unit Nat Nat (fun b => if b = 0 then none else some b)).1
    [1] 0 [] (by decide) (by decide)

/-- Claim C10 (implicit): a transport-level error item makes
`DecodedInbound` terminate without invoking `on_decode_error` (so no
abort is wired): the run over any frames followed by an `Err` item equals
the run over the frames alone, i.e. a transport error on the request
track is indistinguishable from a clean client close; in particular a
fully decodable prefix followed by an `Err` yields the decoded prefix
with the callback not invoked. -/
theorem claim_C10 :
    (∀ (ε β ρ : Type) (dec : β → Option ρ) (fs : List (Except ε β)) (e : ε)
        (rest : List (Except ε β)),
      DecodedInbound.run dec (fs ++ Except.error e :: rest)
        = DecodedInbound.run dec fs)
    ∧ (∀ (ε β ρ : Type) (dec : β → Option ρ) (pre : List β) (e : ε)
        (rest : List (Except ε β)),
      (∀ x ∈ pre, (dec x).isSome = true) →
      DecodedInbound.run dec (pre.map Except.ok ++ Except.error e :: rest)
        = (pre.filterMap dec, false)) := by
  constructor
  · intro ε β ρ dec fs e rest
    exact DecodedInbound.run_append_error dec fs e rest
  · intro ε β ρ dec pre e rest h
    rw [DecodedInbound.run_append_error dec (pre.map Except.ok) e rest]
    have hr := DecodedInbound.run_ok_all dec pre h ([] : List (Except ε β))
    simpa [DecodedInbound.run] using hr

/-- Witness for C10 at a concrete stream: one decodable frame then a
transport error yields the decoded frame with no callback invocation. -/
theorem claim_C10_witness :
    DecodedInbound.run (ε := Unit) (fun b : Nat => some b)
        ([1].map Except.ok ++ Except.error () :: [Except.ok 2])
      = ([1], false) :=
  claim_C10.2 Unit Nat Nat (fun b => some b) [1] () [Except.ok 2] (by decide)
